import Mathlib

/-!
Verification development for the `atendimento_alunos_bot` repository.

The Python sources are shallowly embedded as executable Lean definitions:
pure helpers become Lean functions on `String` / `List Char`, stateful
methods become explicit state-passing functions, machine floats
(`time.time()` timestamps, reminder timestamps) are modelled as rationals,
and fallible code returns `Except` / sum-like inductives.  Each definition
carries a comment naming the Python function it embeds.
-/

/- ----------------------------------------------------------------------
   Python string primitives used throughout the sources, re-implemented on
   `List Char` so that they compute inside the kernel.  Python `str.strip`
   removes the ASCII whitespace characters below (the sources only ever
   strip ASCII text, so the Unicode extras of CPython are irrelevant here).
   ---------------------------------------------------------------------- -/

def pyWsChars : List Char := [' ', '\t', '\n', '\r', '\x0b', '\x0c']

def isPyWs (c : Char) : Bool := pyWsChars.contains c

/-- Python `str.strip()` on a character list. -/
def pyStripL (l : List Char) : List Char :=
  ((l.dropWhile isPyWs).reverse.dropWhile isPyWs).reverse

/-- Python `str.strip()` on a `String`. -/
def pyStrip (s : String) : String := String.mk (pyStripL s.toList)

/-- Python `str.split(sep)` for a one-character separator (accumulator form). -/
def splitCharGo (sep : Char) (acc : List Char) : List Char → List (List Char)
  | [] => [acc.reverse]
  | c :: cs =>
    if c == sep then acc.reverse :: splitCharGo sep [] cs
    else splitCharGo sep (c :: acc) cs

/-- Python `str.split(sep)` for a one-character separator. -/
def splitChar (sep : Char) (l : List Char) : List (List Char) :=
  splitCharGo sep [] l

/- ----------------------------------------------------------------------
   Admin allow-list (`telegram_controller.py`, `_is_admin`).
   `admin_id` is a comma separated string of Telegram ids; the empty string
   is falsy in Python and short-circuits to `False`.
   ---------------------------------------------------------------------- -/

/-- Embeds `TelegramController._is_admin`: split the configured `admin_id`
on commas, strip each piece, drop empty pieces, and test membership of the
textual user id. -/
def isAdmin (adminIdRaw : String) (userId : String) : Bool :=
  if adminIdRaw == "" then false
  else
    let adminList :=
      ((splitChar ',' adminIdRaw.toList).map pyStripL).filter (fun p => !p.isEmpty)
    adminList.contains userId.toList

/-- Embeds `config_manager.get ("admin_id", "")`: a missing key yields the
default, the empty string. -/
def adminIdOf (stored : Option String) : String := stored.getD ""

/- ----------------------------------------------------------------------
   Admission behaviour of the admin command handlers
   (`telegram_controller.py`).  For each handler we record only its
   access-control prefix: what happens before any action runs, as a
   function of whether the update carries a message and whether the caller
   is an admin.
   ---------------------------------------------------------------------- -/

inductive CmdOutcome where
  /-- the handler body (the administrative action) runs -/
  | executed : CmdOutcome
  /-- the handler replies with an explicit access-denied message and stops -/
  | accessDeniedReply : CmdOutcome
  /-- the handler returns without any reply and without acting -/
  | silentReturn : CmdOutcome
deriving DecidableEq

/-- Embeds `_cmd_list_models` (`/ia`, model switching): message check, then
admin check with an explicit denial reply. -/
def cmdListModels (hasMessage isAdm : Bool) : CmdOutcome :=
  if !hasMessage then .silentReturn
  else if !isAdm then .accessDeniedReply
  else .executed

/-- Embeds `_cmd_embedding` (`/embedding`, embedding switching). -/
def cmdEmbedding (hasMessage isAdm : Bool) : CmdOutcome :=
  if !hasMessage then .silentReturn
  else if !isAdm then .accessDeniedReply
  else .executed

/-- Embeds `_cmd_clear_database` (`/limpar`, full-base clear). -/
def cmdClearDatabase (hasMessage isAdm : Bool) : CmdOutcome :=
  if !hasMessage then .silentReturn
  else if !isAdm then .accessDeniedReply
  else .executed

/-- Embeds `_cmd_add_knowledge_text` (`/conhecimento`, direct text ingestion). -/
def cmdAddKnowledgeText (hasMessage isAdm : Bool) : CmdOutcome :=
  if !hasMessage then .silentReturn
  else if !isAdm then .accessDeniedReply
  else .executed

/-- Embeds `_cmd_aviso` (`/aviso`, broadcast). -/
def cmdAviso (hasMessage isAdm : Bool) : CmdOutcome :=
  if !hasMessage then .silentReturn
  else if !isAdm then .accessDeniedReply
  else .executed

/-- Embeds `_cmd_verbosity` (`/logs`, log-level change): the combined guard
`if not update.message or not self._is_admin(update): return` ends the
handler silently for non-admins. -/
def cmdVerbosity (hasMessage isAdm : Bool) : CmdOutcome :=
  if !hasMessage || !isAdm then .silentReturn else .executed

/-- Embeds `_cmd_add_reminder` (`/lembrete`, reminder creation): same silent
combined guard as `_cmd_verbosity`. -/
def cmdAddReminder (hasMessage isAdm : Bool) : CmdOutcome :=
  if !hasMessage || !isAdm then .silentReturn else .executed

/-- Embeds `_cmd_saude` (`/saude`, health probe): two guards, both silent. -/
def cmdSaude (hasMessage isAdm : Bool) : CmdOutcome :=
  if !hasMessage then .silentReturn
  else if !isAdm then .silentReturn
  else .executed

/-- Embeds `_cmd_ping_ia` (`/ping_ia`, provider latency probe): two guards,
both silent. -/
def cmdPingIa (hasMessage isAdm : Bool) : CmdOutcome :=
  if !hasMessage then .silentReturn
  else if !isAdm then .silentReturn
  else .executed

/-- Embeds `_cmd_restart_bot` (`/reiniciar_bot`, process restart): the body
calls `os.execv` immediately; there is no message check and no admin check
of any kind. -/
def cmdRestartBot (_hasMessage _isAdm : Bool) : CmdOutcome := .executed

/- ----------------------------------------------------------------------
   Concurrency bridge (`async_worker.py`, `AsyncBridgeWorker.submit`).
   `submit` first blocks on `self._loop_ready.wait(timeout=2.0)`; the wait
   outcome is modelled by the boolean `loopReadySignaled`.  The loop field
   is `None` before `run` assigns it, and carries `is_running` afterwards.
   ---------------------------------------------------------------------- -/

structure EventLoop where
  isRunning : Bool
deriving DecidableEq

inductive SubmitOutcome where
  /-- the call reaches `asyncio.run_coroutine_threadsafe` and a future is returned -/
  | futureHandle : SubmitOutcome
  /-- the call raises `RuntimeError(msg)` -/
  | raisesRuntimeError (msg : String) : SubmitOutcome
deriving DecidableEq

/-- The fixed timeout (seconds) `submit` passes to `Event.wait`. -/
def submitTimeoutSeconds : ℚ := 2

/-- Embeds `AsyncBridgeWorker.submit`: startup error when the ready signal
never arrived within the timeout, a distinct error when the loop is absent
or no longer running, otherwise a thread-safe hand-off returning a future. -/
def submit (loopReadySignaled : Bool) (loop : Option EventLoop) : SubmitOutcome :=
  if !loopReadySignaled then
    .raisesRuntimeError "Async event loop did not start in time."
  else if (match loop with | none => true | some l => !l.isRunning) then
    .raisesRuntimeError "Async event loop is not running."
  else .futureHandle

/- ----------------------------------------------------------------------
   Rate limiter (`telegram_controller.py`, `_check_rate_limit`).
   Timestamps come from `time.time()` and are modelled as rationals.  The
   per-user dict entry is independent of all other users, so the state is
   the single list `self._user_message_times[user_id]`.  The per-minute
   ceiling is re-read from configuration on every call, hence it is a
   parameter of every step.
   ---------------------------------------------------------------------- -/

/-- The pruning comprehension of `_check_rate_limit`: keep timestamps `t`
with `now - t < 60`. -/
def rlPrune (now : ℚ) (times : List ℚ) : List ℚ :=
  times.filter (fun t => decide (now - t < 60))

/-- Embeds one call of `_check_rate_limit`: prune, compare against the
ceiling, and append the current time only when allowed.  Returns the new
stored list and the boolean result (`true` = allowed). -/
def checkRateLimit (limit : ℤ) (now : ℚ) (times : List ℚ) : List ℚ × Bool :=
  let pruned := rlPrune now times
  if limit ≤ (pruned.length : ℤ) then (pruned, false)
  else (pruned ++ [now], true)

/-- A sequence of `_check_rate_limit` calls for one user at the given call
times, threading the stored timestamp list; returns the final list and the
per-call `(time, allowed)` outcomes. -/
def rlRun (limit : ℤ) (times : List ℚ) : List ℚ → List ℚ × List (ℚ × Bool)
  | [] => (times, [])
  | n :: ns =>
    let step := checkRateLimit limit n times
    let rest := rlRun limit step.1 ns
    (rest.1, (n, step.2) :: rest.2)

/-- Membership of a call time in the rolling 60-second window ending at
`w + 60`. -/
def inWindow (w a : ℚ) : Bool := decide (w < a) && decide (a ≤ w + 60)

/- ----------------------------------------------------------------------
   Conversation memory (`telegram_controller.py`, `_add_to_history` and
   `_get_history_text`).  The per-user `collections.deque` is modelled as
   its `maxlen` plus the item list; `deque.append` on a full deque and
   `deque(old, maxlen=m)` both keep the rightmost `maxlen` items, i.e.
   `List.rtake`.
   ---------------------------------------------------------------------- -/

structure HistRing where
  maxlen : Nat
  items : List (String × String)
deriving DecidableEq

/-- Items of an optional per-user ring (`self._chat_history.get(user_id)`). -/
def histItems : Option HistRing → List (String × String)
  | none => []
  | some r => r.items

/-- Embeds `_add_to_history`: no-op when the configured size is `<= 0`;
otherwise create the deque on demand, rebuild it when the configured size
changed, and append (evicting on the left when full). -/
def addToHistory (maxSize : ℤ) (st : Option HistRing) (question answer : String) :
    Option HistRing :=
  if maxSize ≤ 0 then st
  else
    let r := st.getD ⟨maxSize.toNat, []⟩
    let r := if (r.maxlen : ℤ) ≠ maxSize then
        (⟨maxSize.toNat, r.items.rtake maxSize.toNat⟩ : HistRing)
      else r
    some ⟨r.maxlen, (r.items ++ [(question, answer)]).rtake r.maxlen⟩

/-- Embeds `_get_history_text`: empty string when the user has no ring or
the ring is empty, else alternating question/answer lines joined by
newlines.  Note that it reads nothing from configuration. -/
def getHistoryText (st : Option HistRing) : String :=
  match st with
  | none => ""
  | some r =>
    if r.items.isEmpty then ""
    else String.intercalate "\n"
      (r.items.flatMap (fun qa => ["Aluno: " ++ qa.1, "Assistente: " ++ qa.2]))

/- ----------------------------------------------------------------------
   Reminder scheduler (`telegram_controller.py`, `_setup_reminder_jobs`,
   `_execute_reminder`).  Epoch-second timestamps are rationals.
   ---------------------------------------------------------------------- -/

structure Reminder where
  id : String
  timestamp : ℚ
  date_human : String
  message : String
deriving DecidableEq

/-- Embeds `_setup_reminder_jobs`: walk a copy of the persisted list,
register a one-shot job for every strictly-future reminder, remove the
rest, and rewrite the file.  Returns `(persisted list after the sweep,
registered reminders)`. -/
def setupReminderJobs (now : ℚ) (rems : List Reminder) :
    List Reminder × List Reminder :=
  (rems.filter (fun r => decide (now < r.timestamp)),
   rems.filter (fun r => decide (now < r.timestamp)))

/-- One delivery attempt of `_execute_reminder`: the user contacted and
whether `send_message` succeeded (failures are swallowed by the bare
`except: pass`). -/
structure DeliveryAttempt where
  user : ℤ
  delivered : Bool
deriving DecidableEq

/-- Embeds `_execute_reminder`: one send attempt per entry of
`analytics.get_unique_users()` regardless of earlier failures, then the
reminder is filtered out of the persisted list by id and the file is
rewritten.  Returns `(new persisted list, attempts, success count)`. -/
def executeReminder (rems : List Reminder) (rem : Reminder) (userIds : List ℤ)
    (sendOk : ℤ → Bool) : List Reminder × List DeliveryAttempt × Nat :=
  let attempts := userIds.map (fun u => DeliveryAttempt.mk u (sendOk u))
  let success := (attempts.filter (fun a => a.delivered)).length
  (rems.filter (fun r => r.id != rem.id), attempts, success)

/- ----------------------------------------------------------------------
   Configuration store (`config_manager.py`).  A JSON document is an
   insertion-ordered association list, exactly like a CPython dict; the
   serialized bytes written by `json.dump` are a function of that ordered
   document, so byte-identical persisted content is document equality.
   ---------------------------------------------------------------------- -/

inductive JVal where
  | s (v : String)
  | n (v : ℚ)
  | b (v : Bool)
  | arr (vs : List JVal)
  | obj (fields : List (String × JVal))

/-- A JSON object document: ordered key/value pairs. -/
abbrev ConfigDoc := List (String × JVal)

/-- The keys of a document, in order. -/
def configKeys (doc : ConfigDoc) : List String := doc.map Prod.fst

/-- Helper for building the five default menu buttons. -/
def menuButton (id : String) (text : String) (action : String) (parameter : String) : JVal :=
  .obj [("id", .s id), ("enabled", .b true), ("text", .s text),
        ("action", .s action), ("parameter", .s parameter)]

/-- Embeds `ConfigurationManager._get_defaults`: the full default document. -/
def getDefaults : ConfigDoc :=
  [ ("ai_provider", .s "ollama"),
    ("telegram_token", .s ""),
    ("admin_id", .s ""),
    ("ollama_model", .s "llama3:latest"),
    ("openrouter_key", .s ""),
    ("openrouter_model", .s "openai/gpt-3.5-turbo"),
    ("system_prompt", .s ("Você é um assistente virtual dedicado ao atendimento de alunos. Forneça orientações sobre horários, disciplinas e material didático. Seja sempre cortês e solícito. RESPONDA APENAS com base no contexto fornecido. Se a informação não estiver disponível, informe que não sabe.")),
    ("temperature", .n (7/10)),
    ("max_tokens", .n 2048),
    ("ollama_url", .s "http://127.0.0.1:11434"),
    ("ollama_embedding_model", .s "nomic-embed-text"),
    ("rag_k", .n 8),
    ("embedding_provider", .s "ollama"),
    ("openrouter_embedding_model", .s "qwen/qwen3-embedding-8b"),
    ("chat_history_size", .n 5),
    ("rate_limit_per_minute", .n 10),
    ("chroma_dir", .s "db_atendimento"),
    ("log_verbosity", .s "médio"),
    ("welcome_message", .s ("Sou o assistente virtual do Professor e estou aqui para ajudá-lo(a) com dúvidas sobre as disciplinas, horários, materiais e muito mais.\n\n💡 Como me usar:\n• Envie sua dúvida diretamente por texto\n• Use os botões do menu abaixo para acesso rápido\n• Digite /ajuda para ver todos os comandos\n\nVamos lá! Como posso ajudá-lo(a)?")),
    ("menu_buttons", .arr
      [ menuButton "btn1" "Horário" "file_upload" "horario",
        menuButton "btn2" "Cronograma" "file_upload" "cronograma",
        menuButton "btn3" "Materiais" "text_file" "materiais.txt",
        menuButton "btn4" "FAQ" "text_file" "faq.txt",
        menuButton "btn5" "Falar com o Professor" "fixed_text" "Prof. Carlo Ralph De Musis\n\nTelegram: @carlodemusis\nTelefone: (65) 9 9262-5221\nE-mail: carlo.demusis@gmail.com" ]) ]

/-- Embeds the loop of `ConfigurationManager._migrate_config` over a list
of default key/value pairs: append each missing key, tracking whether
anything was added (the `updated` flag). -/
def migrateConfig (doc : ConfigDoc) : List (String × JVal) → ConfigDoc × Bool
  | [] => (doc, false)
  | kv :: rest =>
    if (configKeys doc).contains kv.1 then migrateConfig doc rest
    else ((migrateConfig (doc ++ [kv]) rest).1, true)

/-- The on-disk configuration file: missing, unparsable, or a stored
document. -/
inductive FileState where
  | missing
  | corrupt
  | stored (doc : ConfigDoc)

/-- Result of `ConfigurationManager._initialize`: the resulting file, the
in-memory document, and whether the file was written. -/
structure InitResult where
  file : FileState
  memory : ConfigDoc
  wrote : Bool

/-- Embeds `ConfigurationManager._initialize`: create the default file when
missing (or when `json.load` fails), otherwise load and migrate, writing
back only when migration added a key. -/
def initConfig : FileState → InitResult
  | .missing => ⟨.stored getDefaults, getDefaults, true⟩
  | .corrupt => ⟨.stored getDefaults, getDefaults, true⟩
  | .stored doc =>
    let m := migrateConfig doc getDefaults
    if m.2 then ⟨.stored m.1, m.1, true⟩ else ⟨.stored doc, m.1, false⟩

/- ----------------------------------------------------------------------
   Vector store (`rag_repository.py`).  A Chroma collection is modelled as
   the list of stored chunks: each has an id and optional metadata with
   the optional keys `original_filename` and `source`.
   ---------------------------------------------------------------------- -/

structure ChunkMeta where
  original_filename : Option String
  source : Option String
deriving DecidableEq

structure Chunk where
  id : String
  metadata : Option ChunkMeta
deriving DecidableEq

/-- Python `os.path.basename` for POSIX paths: the part after the last
slash (`basename ""` is `""`). -/
def basename (s : String) : String :=
  String.mk ((splitChar '/' s.toList).getLastD [])

/-- The display name of a chunk, as computed in `delete_document`,
`list_documents` and `get_stats`:
`meta.get("original_filename") or os.path.basename(str(meta.get("source", "")))`
(the empty string is falsy, so it falls through to the source path). -/
def sourceFileOf (m : ChunkMeta) : String :=
  match m.original_filename with
  | some s => if s == "" then basename (m.source.getD "") else s
  | none => basename (m.source.getD "")

/-- Whether a chunk is selected by `delete_document filename`: metadata is
present and its display name equals the requested filename. -/
def matchesFile (c : Chunk) (filename : String) : Bool :=
  match c.metadata with
  | none => false
  | some m => sourceFileOf m == filename

inductive DelResult where
  /-- success: ok with the deleted count and the filename -/
  | deleted (deleted_count : Nat) (filename : String) : DelResult
  /-- failure: ok false with the explicit not-found message -/
  | notFound (error : String) : DelResult
deriving DecidableEq

/-- Embeds `VectorStoreRepository.delete_document`: collect the ids of all
chunks whose metadata matches, delete them when any exist, otherwise leave
the store untouched and report the explicit not-found error. -/
def deleteDocument (store : List Chunk) (filename : String) :
    List Chunk × DelResult :=
  let idsToDelete := (store.filter (fun c => matchesFile c filename)).map (fun c => c.id)
  if idsToDelete.isEmpty then
    (store, .notFound ("Arquivo \x27" ++ filename ++ "\x27 não encontrado na base."))
  else
    (store.filter (fun c => !idsToDelete.contains c.id),
     .deleted idsToDelete.length filename)

/-- Embeds `VectorStoreRepository.get_stats`: unique display names of
chunks with metadata and a non-empty name, plus the total chunk count. -/
def getStats (store : List Chunk) : Nat × Nat :=
  let names := ((store.filterMap (fun c => c.metadata)).map sourceFileOf).filter
    (fun s => s != "")
  (names.eraseDups.length, store.length)

/-- Wire response of the `ingest_worker.py` subprocess for one action. -/
inductive WireResp where
  | okDelete (deleted_count : Nat) (filename : String) : WireResp
  | errResp (error : String) : WireResp
deriving DecidableEq

/-- Embeds the `delete` branch of `ingest_worker.main`: run
`repo.delete_document` and serialize either the success result or the
failure dict unchanged (`ok=False` plus the error text). -/
def workerDelete (store : List Chunk) (filename : String) :
    List Chunk × WireResp :=
  let r := deleteDocument store filename
  match r.2 with
  | .deleted n f => (r.1, .okDelete n f)
  | .notFound e => (r.1, .errResp e)

/- ----------------------------------------------------------------------
   Knowledge-worker caller (`telegram_controller.py`, `_run_chroma_worker`).
   The subprocess outcome is either a timeout (`subprocess.TimeoutExpired`
   after the 180-second limit) or a completed run with exit code, stdout
   and stderr.  `json.loads` of the last output line is abstracted by a
   `parse` function returning the decoded response object, `none` standing
   for a `json.JSONDecodeError`.
   ---------------------------------------------------------------------- -/

/-- The hard timeout (seconds) passed to `subprocess.run`. -/
def chromaWorkerTimeoutSeconds : ℕ := 180

inductive ProcOutcome where
  | timeout
  | completed (returncode : ℤ) (stdout : String) (stderr : String)

/-- A decoded worker response object: `{ok, result?, error?}`. -/
structure WorkerResp (α : Type) where
  ok : Bool
  result : α
  error : Option String

/-- Failures `_run_chroma_worker` can raise. -/
inductive WorkerFailure where
  /-- a `RuntimeError` with the given message: the single typed error of
  the caller -/
  | runtimeError (msg : String) : WorkerFailure
  /-- a `json.JSONDecodeError` escaping from `json.loads` -/
  | jsonDecodeError : WorkerFailure
deriving DecidableEq

/-- Embeds the `_run` closure of `_run_chroma_worker`: timeout and
non-zero exits become `RuntimeError`s, stripped-empty stdout becomes a
`RuntimeError`, then the last stdout line is decoded and `ok=False`
responses raise with the response error text; on success the `result`
field is returned. -/
def runChromaWorker {α : Type} (parse : String → Option (WorkerResp α)) :
    ProcOutcome → Except WorkerFailure α
  | .timeout => .error (.runtimeError "Base de dados demorou muito para responder")
  | .completed rc stdout stderr =>
    if rc ≠ 0 then
      .error (.runtimeError ("ChromaDB worker failed (exit " ++ toString rc ++ "): "
        ++ (if stderr == "" then "Processo encerrado inesperadamente" else pyStrip stderr)))
    else
      let output := pyStrip stdout
      if output == "" then .error (.runtimeError "ChromaDB worker retornou sem dados")
      else
        match parse (String.mk ((splitChar '\n' output.toList).getLastD [])) with
        | none => .error .jsonDecodeError
        | some data =>
          if data.ok then .ok data.result
          else .error (.runtimeError (data.error.getD "Erro desconhecido"))

/- ----------------------------------------------------------------------
   Streamed generation and display cleaning (`ollama_client.py`,
   `generate_response`, and `telegram_controller.py`, `_clean_markdown` /
   `_handle_message`).  The `re.sub` calls of the sources are re-implemented
   on `List Char` with the exact scanning semantics of CPython `re`:
   leftmost match, lazy quantifiers take the shortest completion, `.`
   excludes the newline unless the call passes `re.DOTALL`, and scanning
   resumes after each replacement.  Recursive scanners take a fuel
   argument (one unit per character of the input is always enough, every
   step consumes at least one character) so that they reduce structurally
   inside the kernel.
   ---------------------------------------------------------------------- -/

/-- Search for the literal `"</think>"` and return the suffix after it
(the lazy `.*?` of the think pattern stops at the first closer). -/
def matchCloseThink : List Char → Option (List Char)
  | [] => none
  | c :: cs =>
    if List.isPrefixOf "</think>".toList (c :: cs) then some (List.drop 8 (c :: cs))
    else matchCloseThink cs

/-- Scanner for `re.sub(r"<think>.*?</think>", "", chunk, flags=re.DOTALL)`
from `OllamaAdapter.generate_response`. -/
def stripThinkGo : ℕ → List Char → List Char
  | 0, l => l
  | _ + 1, [] => []
  | fuel + 1, c :: cs =>
    if List.isPrefixOf "<think>".toList (c :: cs) then
      match matchCloseThink (List.drop 7 (c :: cs)) with
      | some rest => stripThinkGo fuel rest
      | none => c :: stripThinkGo fuel cs
    else c :: stripThinkGo fuel cs

/-- Per-fragment think-tag removal applied by the Ollama client before a
chunk is yielded. -/
def stripThink (s : String) : String :=
  String.mk (stripThinkGo (s.toList.length + 1) s.toList)

/-- Lazy-group search: after the opener has been consumed, find the
shortest content (each character barred from `'\n'` unless `allowNl`)
followed by the literal closer `cls`; `canStop` is false until the
one-character minimum of a `+?` group has been met.  Returns the content
and the suffix after the closer. -/
def findLazyGo (cls : List Char) (allowNl : Bool) :
    Bool → List Char → Option (List Char × List Char)
  | canStop, l =>
    if canStop && !cls.isEmpty && List.isPrefixOf cls l then
      some ([], List.drop cls.length l)
    else
      match l with
      | [] => none
      | c :: cs =>
        if !allowNl && c == '\n' then none
        else
          match findLazyGo cls allowNl true cs with
          | some (content, rest) => some (c :: content, rest)
          | none => none

/-- Scanner for `re.sub` of a pattern `opn(.+?)cls` (or `opn(.*?)cls` when
`minOne` is false), replacing each match by `wrap content`. -/
def subLazyGo (opn cls : List Char) (allowNl minOne : Bool)
    (wrap : List Char → List Char) : ℕ → List Char → List Char
  | 0, l => l
  | _ + 1, [] => []
  | fuel + 1, c :: cs =>
    if !opn.isEmpty && List.isPrefixOf opn (c :: cs) then
      match findLazyGo cls allowNl (!minOne) (List.drop opn.length (c :: cs)) with
      | some (content, rest) => wrap content ++ subLazyGo opn cls allowNl minOne wrap fuel rest
      | none => c :: subLazyGo opn cls allowNl minOne wrap fuel cs
    else c :: subLazyGo opn cls allowNl minOne wrap fuel cs

/-- One `re.sub` pass of a lazy one-group pattern over a character list. -/
def subLazy (opn cls : List Char) (allowNl minOne : Bool)
    (wrap : List Char → List Char) (l : List Char) : List Char :=
  subLazyGo opn cls allowNl minOne wrap (l.length + 1) l

/-- Backtracking search for `\{(.+?)\}\{(.+?)\}` (after `\frac` has been
consumed): the first lazy group grows one character at a time; at each
boundary showing the literal `}{` the second lazy group is tried. -/
def findFracGo : Bool → List Char → Option (List Char × List Char × List Char)
  | _, [] => none
  | canStop, c :: cs =>
    match (if canStop && List.isPrefixOf ['\x7d', '\x7b'] (c :: cs) then
        findLazyGo ['\x7d'] false false (List.drop 2 (c :: cs))
      else none) with
    | some (g2, rest) => some ([], g2, rest)
    | none =>
      if c == '\n' then none
      else
        match findFracGo true cs with
        | some (g1, g2, rest) => some (c :: g1, g2, rest)
        | none => none

/-- Scanner for `re.sub(r"\\frac\{(.+?)\}\{(.+?)\}", r"(\1/\2)", text)`. -/
def subFracGo : ℕ → List Char → List Char
  | 0, l => l
  | _ + 1, [] => []
  | fuel + 1, c :: cs =>
    if List.isPrefixOf ['\\', 'f', 'r', 'a', 'c', '\x7b'] (c :: cs) then
      match findFracGo false (List.drop 6 (c :: cs)) with
      | some (g1, g2, rest) =>
        '(' :: (g1 ++ '/' :: (g2 ++ ')' :: subFracGo fuel rest))
      | none => c :: subFracGo fuel cs
    else c :: subFracGo fuel cs

def subFrac (l : List Char) : List Char := subFracGo (l.length + 1) l

/-- Try the header pattern `#{1,3}\s+` at a line start: one to three
hashes (four or more fail every backtrack) followed by a greedy non-empty
whitespace run.  Returns the suffix after the match and whether the last
consumed character was a newline (so the next position is again a line
start). -/
def tryHeader (l : List Char) : Option (List Char × Bool) :=
  let hashes := l.takeWhile (fun c => c == '#')
  if 1 ≤ hashes.length && hashes.length ≤ 3 then
    let rest := l.drop hashes.length
    let ws := rest.takeWhile isPyWs
    if ws.isEmpty then none
    else some (rest.drop ws.length, ws.getLastD ' ' == '\n')
  else none

/-- Scanner for `re.sub(r"^#{1,3}\s+", "", text, flags=re.MULTILINE)`:
`atStart` tracks whether the current position is the start of the text or
follows a newline. -/
def stripHeadersGo : ℕ → Bool → List Char → List Char
  | 0, _, l => l
  | _ + 1, _, [] => []
  | fuel + 1, atStart, c :: cs =>
    if atStart then
      match tryHeader (c :: cs) with
      | some (rest, nl) => stripHeadersGo fuel nl rest
      | none => c :: stripHeadersGo fuel (c == '\n') cs
    else c :: stripHeadersGo fuel (c == '\n') cs

def stripHeaders (l : List Char) : List Char :=
  stripHeadersGo (l.length + 1) true l

/-- Embeds `re.sub` of a literal (metacharacter-free) pattern: leftmost,
non-overlapping replacement, identical to `str.replace`. -/
def replaceAllGo (pat rep : List Char) : ℕ → List Char → List Char
  | 0, l => l
  | _ + 1, [] => []
  | fuel + 1, c :: cs =>
    if !pat.isEmpty && List.isPrefixOf pat (c :: cs) then
      rep ++ replaceAllGo pat rep fuel (List.drop pat.length (c :: cs))
    else c :: replaceAllGo pat rep fuel cs

def replaceAllL (pat rep l : List Char) : List Char :=
  replaceAllGo pat rep (l.length + 1) l

/-- Scanner for the final pass `re.sub(r"\\([_#$!%&])", r"\1", text)`. -/
def unescapeFinal : List Char → List Char
  | [] => []
  | '\\' :: c :: rest =>
    if ['_', '#', '$', '!', '%', '&'].contains c then c :: unescapeFinal rest
    else '\\' :: unescapeFinal (c :: rest)
  | c :: cs => c :: unescapeFinal cs

/-- Embeds `TelegramController._clean_markdown` on a character list: the
exact sequence of `re.sub` passes of the source, followed by `str.strip`. -/
def cleanMarkdownL (l : List Char) : List Char :=
  let t := subLazy ['*', '*'] ['*', '*'] false true (fun g => g) l
  let t := subLazy ['*'] ['*'] false true (fun g => g) t
  let t := stripHeaders t
  let t := subLazy ['$', '$'] ['$', '$'] true false (fun g => g) t
  let t := subLazy ['$'] ['$'] false false (fun g => g) t
  let t := subLazy ['\\', '['] ['\\', ']'] true false (fun g => g) t
  let t := subLazy ['\\', '('] ['\\', ')'] false false (fun g => g) t
  let t := subLazy ['\\', 't', 'e', 'x', 't', '\x7b'] ['\x7d'] false true (fun g => g) t
  let t := subFrac t
  let t := replaceAllL ['\\', 't', 'i', 'm', 'e', 's'] ['x'] t
  let t := replaceAllL ['\\', 'c', 'd', 'o', 't'] ['·'] t
  let t := replaceAllL ['\\', 'd', 'i', 'v'] ['/'] t
  let t := replaceAllL ['\\', 'p', 'm'] ['+', '/', '-'] t
  let t := replaceAllL ['\\', 'a', 'p', 'p', 'r', 'o', 'x'] ['≈'] t
  let t := replaceAllL ['\\', 'l', 'e', 'q'] ['<', '='] t
  let t := replaceAllL ['\\', 'g', 'e', 'q'] ['>', '='] t
  let t := replaceAllL ['\\', 'n', 'e', 'q'] ['!', '='] t
  let t := replaceAllL ['\\', 'i', 'n', 'f', 't', 'y'] ['∞'] t
  let t := replaceAllL ['\\', 'r', 'i', 'g', 'h', 't', 'a', 'r', 'r', 'o', 'w'] ['→'] t
  let t := replaceAllL ['\\', 'p', 'i'] ['π'] t
  let t := subLazy ['\\', 's', 'q', 'r', 't', '\x7b'] ['\x7d'] false true
    (fun g => ['s', 'q', 'r', 't', '('] ++ g ++ [')']) t
  let t := subLazy ['\\', 'h', 'a', 't', '\x7b'] ['\x7d'] false true (fun g => g) t
  let t := subLazy ['\\', 'b', 'a', 'r', '\x7b'] ['\x7d'] false true (fun g => g) t
  let t := replaceAllL ['\\', 'D', 'e', 'l', 't', 'a'] ['Δ'] t
  let t := replaceAllL ['\\', 'a', 'l', 'p', 'h', 'a'] ['α'] t
  let t := replaceAllL ['\\', 'b', 'e', 't', 'a'] ['β'] t
  let t := replaceAllL ['\\', 't', 'h', 'e', 't', 'a'] ['θ'] t
  let t := replaceAllL ['\\', '\x7b'] ['\x7b'] t
  let t := replaceAllL ['\\', '\x7d'] ['\x7d'] t
  let t := replaceAllL ['\\', '_'] ['_'] t
  let t := replaceAllL ['\\', ' '] [' '] t
  let t := unescapeFinal t
  pyStripL t

/-- Embeds `TelegramController._clean_markdown`. -/
def cleanMarkdown (s : String) : String := String.mk (cleanMarkdownL s.toList)

/-- The chunks actually yielded by `OllamaAdapter.generate_response`: each
raw fragment is think-stripped and yielded only when non-empty. -/
def ollamaEmittedChunks (raw : List String) : List String :=
  (raw.map stripThink).filter (fun c => c != "")

/-- The accumulation loop of `_handle_message`:
`response_text += chunk` over the yielded chunks. -/
def responseTextOf (chunks : List String) : String :=
  chunks.foldl (fun acc c => acc ++ c) ""

/-- Embeds the reply branch of `_handle_message` for the Ollama provider:
accumulate the yielded fragments; a non-empty accumulation is displayed
after `_clean_markdown`, an empty one is replaced by the apology text. -/
def handleReply (raw : List String) : String :=
  let response := responseTextOf (ollamaEmittedChunks raw)
  if response == "" then "Desculpe, não consegui gerar uma resposta."
  else cleanMarkdown response

/-- Modelled from the spec: the reply displayed to the user is the
concatenation of the fragments with provider artifacts (vendor thinking
tags, then markdown and LaTeX fragments) stripped before display. -/
def specDisplayedReply (raw : List String) : String :=
  cleanMarkdown (stripThink (responseTextOf raw))

/- ----------------------------------------------------------------------
   Shared helper lemmas.
   ---------------------------------------------------------------------- -/

/-- The rightmost-`n` view absorbs an earlier rightmost-`n` truncation. -/
theorem rtake_append_rtake (n : ℕ) (xs ys : List (String × String)) :
    ((xs.rtake n) ++ ys).rtake n = (xs ++ ys).rtake n := by
  simp only [List.rtake_eq_reverse_take_reverse, List.reverse_append, List.reverse_reverse]
  congr 1
  rw [List.take_append_eq_append_take, List.take_append_eq_append_take, List.take_take,
    Nat.min_eq_left (Nat.sub_le n ys.reverse.length)]

/-- Length bound for the rightmost-`n` view. -/
theorem length_rtake_le (n : ℕ) (l : List (String × String)) : (l.rtake n).length ≤ n := by
  simp [List.rtake]
  omega

/- ----------------------------------------------------------------------
   C1.  Rate limiter.
   ---------------------------------------------------------------------- -/

/-- Window-counting invariant behind the rate limiter: starting from a
stored list that dominates (per Boolean predicate inside the 60-second
horizon) the timestamps already granted, and whose granted timestamps obey
the per-window ceiling, every further sorted sequence of calls keeps the
total number of allowed calls inside any rolling window at or under the
ceiling. -/
theorem rlRun_window_aux (limit : ℤ) :
    ∀ (ns : List ℚ) (st prior : List ℚ) (T : ℚ),
      (∀ n ∈ ns, T ≤ n) → List.Sorted (· ≤ ·) ns →
      (∀ f : ℚ → Bool, (∀ a, f a = true → T - a < 60) → prior.countP f ≤ st.countP f) →
      (∀ w : ℚ, prior.countP (inWindow w) ≤ limit.toNat) →
      ∀ w : ℚ,
        prior.countP (inWindow w) +
          ((rlRun limit st ns).2.countP (fun po => po.2 && inWindow w po.1)) ≤ limit.toNat := by
  intro ns
  induction ns with
  | nil => intro st prior T _ _ _ hwin w; simpa [rlRun] using hwin w
  | cons n ns ih =>
    intro st prior T hT hsort hinv hwin w
    have hTn : T ≤ n := hT n (List.mem_cons_self n ns)
    have hT' : ∀ m ∈ ns, n ≤ m := fun m hm => (List.sorted_cons.mp hsort).1 m hm
    have hsort' : List.Sorted (· ≤ ·) ns := (List.sorted_cons.mp hsort).2
    -- behaviour of pruning relative to the invariant
    have hmono : ∀ f : ℚ → Bool, (∀ a, f a = true → n - a < 60) →
        prior.countP f ≤ (rlPrune n st).countP f := by
      intro f hf
      have h1 : prior.countP f ≤ st.countP f := by
        refine hinv f (fun a ha => ?_)
        have := hf a ha
        linarith
      have h2 : (rlPrune n st).countP f = st.countP f := by
        unfold rlPrune
        rw [List.countP_filter]
        refine congrArg (fun g => st.countP g) (funext fun a => ?_)
        by_cases hfa : f a = true
        · simp [hfa, hf a hfa]
        · simp [Bool.eq_false_iff.mpr hfa]
      omega
    by_cases hle : limit ≤ ((rlPrune n st).length : ℤ)
    · -- denied: nothing is recorded, the output pair is (n, false)
      have hrun : rlRun limit st (n :: ns) =
          ((rlRun limit (rlPrune n st) ns).1,
            (n, false) :: (rlRun limit (rlPrune n st) ns).2) := by
        simp [rlRun, checkRateLimit, hle]
      have := ih (rlPrune n st) prior n hT' hsort' hmono hwin w
      rw [hrun]
      simpa [List.countP_cons] using this
    · -- allowed: n is recorded and granted
      have hrun : rlRun limit st (n :: ns) =
          ((rlRun limit (rlPrune n st ++ [n]) ns).1,
            (n, true) :: (rlRun limit (rlPrune n st ++ [n]) ns).2) := by
        simp [rlRun, checkRateLimit, hle]
      have hlen : ((rlPrune n st).length : ℤ) < limit := by omega
      have hinv' : ∀ f : ℚ → Bool, (∀ a, f a = true → n - a < 60) →
          (prior ++ [n]).countP f ≤ (rlPrune n st ++ [n]).countP f := by
        intro f hf
        rw [List.countP_append, List.countP_append]
        have := hmono f hf
        omega
      have hwin' : ∀ w' : ℚ, (prior ++ [n]).countP (inWindow w') ≤ limit.toNat := by
        intro w'
        rw [List.countP_append]
        by_cases hwn : inWindow w' n = true
        · have himp : ∀ a, inWindow w' a = true → n - a < 60 := by
            intro a ha
            simp only [inWindow, Bool.and_eq_true, decide_eq_true_eq] at ha hwn
            linarith [ha.1, ha.2, hwn.1, hwn.2]
          have h1 : prior.countP (inWindow w') ≤ (rlPrune n st).countP (inWindow w') :=
            hmono _ himp
          have h2 : (rlPrune n st).countP (inWindow w') ≤ (rlPrune n st).length :=
            List.countP_le_length _
          have : ([n] : List ℚ).countP (inWindow w') ≤ 1 := List.countP_le_length _
          omega
        · have : ([n] : List ℚ).countP (inWindow w') = 0 := by
            simp [List.countP_cons, hwn]
          have := hwin w'
          omega
      have htotal := ih (rlPrune n st ++ [n]) (prior ++ [n]) n hT' hsort' hinv' hwin' w
      rw [hrun]
      simp only [List.countP_append, List.countP_cons, List.countP_nil, Bool.true_and]
        at htotal ⊢
      omega

/-- C1 (confirmed): each rate-limit call prunes the stored timestamps to
the rolling 60-second window; a denied call (remaining count at or above
the per-call ceiling) records nothing beyond the prune, an allowed call
records the current time; consequently, starting from an empty record, any
sorted sequence of calls is granted at most the ceiling inside every
rolling 60-second window. -/
theorem rate_limit_spec (limit : ℤ) (now : ℚ) (times : List ℚ) (ns : List ℚ) (w : ℚ)
    (hs : List.Sorted (· ≤ ·) ns) :
    ((checkRateLimit limit now times).2 = false →
      (checkRateLimit limit now times).1 = rlPrune now times) ∧
    ((checkRateLimit limit now times).2 = true →
      (checkRateLimit limit now times).1 = rlPrune now times ++ [now]) ∧
    ((checkRateLimit limit now times).2 = true ↔ ((rlPrune now times).length : ℤ) < limit) ∧
    ((rlRun limit [] ns).2.countP (fun po => po.2 && inWindow w po.1) ≤ limit.toNat) := by
  have hstep : checkRateLimit limit now times =
      if limit ≤ ((rlPrune now times).length : ℤ) then (rlPrune now times, false)
      else (rlPrune now times ++ [now], true) := rfl
  refine ⟨?_, ?_, ?_, ?_⟩
  · intro h
    rcases le_or_lt limit ((rlPrune now times).length : ℤ) with hle | hle
    · rw [hstep, if_pos hle]
    · rw [hstep, if_neg (not_le.mpr hle)] at h
      exact absurd h (by simp)
  · intro h
    rcases le_or_lt limit ((rlPrune now times).length : ℤ) with hle | hle
    · rw [hstep, if_pos hle] at h
      exact absurd h (by simp)
    · rw [hstep, if_neg (not_le.mpr hle)]
  · rcases le_or_lt limit ((rlPrune now times).length : ℤ) with hle | hle
    · rw [hstep, if_pos hle]
      simp only [iff_false, not_lt]
      constructor
      · intro h; exact absurd h (by simp)
      · intro h; omega
    · rw [hstep, if_neg (not_le.mpr hle)]
      simp only [true_iff]
      exact hle
  · cases ns with
    | nil => simp [rlRun]
    | cons n ns =>
      have := rlRun_window_aux limit (n :: ns) [] [] n
        (fun m hm => by
          rcases List.mem_cons.mp hm with h | h
          · exact le_of_eq h.symm
          · exact (List.sorted_cons.mp hs).1 m h)
        hs
        (fun f _ => by simp)
        (fun w' => by simp)
        w
      simpa using this

/-- Witness for C1 at a concrete trace: ceiling 2, calls at times
0, 10, 30, 50 with the third window-filling call denied. -/
theorem rate_limit_spec_witness :
    (((checkRateLimit 2 100 [50, 90]).2 = false →
      (checkRateLimit 2 100 [50, 90]).1 = rlPrune 100 [50, 90]) ∧
    ((checkRateLimit 2 100 [50, 90]).2 = true →
      (checkRateLimit 2 100 [50, 90]).1 = rlPrune 100 [50, 90] ++ [100]) ∧
    ((checkRateLimit 2 100 [50, 90]).2 = true ↔ ((rlPrune 100 [50, 90]).length : ℤ) < 2) ∧
    ((rlRun 2 [] [0, 10, 30, 50]).2.countP (fun po => po.2 && inWindow 0 po.1) ≤ (2 : ℤ).toNat)) :=
  rate_limit_spec 2 100 [50, 90] [0, 10, 30, 50] 0 (by decide)

/- ----------------------------------------------------------------------
   C2.  Admin command admission.
   ---------------------------------------------------------------------- -/

/-- C2 counterexample: with a message present and a non-admin caller,
`/reiniciar_bot` executes the restart outright (it never checks the
allow-list), and `/logs` returns silently; neither replies with an
access-denied message as the claim requires of every admin-only command. -/
theorem admin_gate_counterexample :
    cmdRestartBot true false = .executed ∧
    cmdRestartBot true false ≠ .accessDeniedReply ∧
    cmdVerbosity true false = .silentReturn ∧
    cmdVerbosity true false ≠ .accessDeniedReply ∧
    cmdSaude true false = .silentReturn ∧
    cmdPingIa true false = .silentReturn ∧
    cmdAddReminder true false = .silentReturn := by decide

/-- C2 (corrected): for a non-admin caller, model and embedding switching,
full-base clear, direct text ingestion and broadcast reply with an
explicit access-denied message before acting; log-level change, the
health and latency probes and reminder creation check the allow-list but
return silently without reply; process restart performs no allow-list
check at all and executes for every caller.  Admin callers reach the
handler body in all cases. -/
theorem admin_gate_amended :
    cmdListModels true false = .accessDeniedReply ∧
    cmdEmbedding true false = .accessDeniedReply ∧
    cmdClearDatabase true false = .accessDeniedReply ∧
    cmdAddKnowledgeText true false = .accessDeniedReply ∧
    cmdAviso true false = .accessDeniedReply ∧
    cmdVerbosity true false = .silentReturn ∧
    cmdAddReminder true false = .silentReturn ∧
    cmdSaude true false = .silentReturn ∧
    cmdPingIa true false = .silentReturn ∧
    (∀ hasMessage isAdm, cmdRestartBot hasMessage isAdm = .executed) ∧
    cmdListModels true true = .executed ∧
    cmdEmbedding true true = .executed ∧
    cmdClearDatabase true true = .executed ∧
    cmdAddKnowledgeText true true = .executed ∧
    cmdAviso true true = .executed ∧
    cmdVerbosity true true = .executed ∧
    cmdAddReminder true true = .executed ∧
    cmdSaude true true = .executed ∧
    cmdPingIa true true = .executed := by decide

/- ----------------------------------------------------------------------
   C3.  Conversation-history ring.
   ---------------------------------------------------------------------- -/

/-- C3 counterexample: after one stored pair under capacity 5, setting the
configured capacity to 0 makes further additions no-ops but leaves the
old entry in place, and the rendered history text is not the empty
string. -/
theorem history_capacity_zero_counterexample :
    addToHistory 0 (addToHistory 5 none "Quando é a prova?" "Sexta-feira.") "q2" "a2"
      = addToHistory 5 none "Quando é a prova?" "Sexta-feira." ∧
    getHistoryText (addToHistory 5 none "Quando é a prova?" "Sexta-feira.") ≠ "" ∧
    getHistoryText (addToHistory 5 none "Quando é a prova?" "Sexta-feira.")
      = "Aluno: Quando é a prova?\nAssistente: Sexta-feira." := by decide

/-- C3 (corrected): adding to history is a no-op when the configured
capacity is at most 0; under a positive capacity the ring after an add is
exactly the rightmost `capacity` entries of the old contents plus the new
pair (evicting oldest on overflow, rebuilding immediately on capacity
change), so it never exceeds the capacity; but the rendering function
ignores the configured capacity entirely: after the capacity is set to 0
the rendered text still shows the previously stored entries, and it is
the empty string only when no entries exist. -/
theorem history_ring_amended (maxSize : ℤ) (st : Option HistRing) (q a : String)
    (m m2 : ℕ) (items : List (String × String)) :
    (maxSize ≤ 0 → addToHistory maxSize st q a = st) ∧
    (0 < maxSize →
      histItems (addToHistory maxSize st q a)
        = (histItems st ++ [(q, a)]).rtake maxSize.toNat) ∧
    (0 < maxSize →
      (histItems (addToHistory maxSize st q a)).length ≤ maxSize.toNat) ∧
    (getHistoryText (some ⟨m, items⟩) = getHistoryText (some ⟨m2, items⟩)) ∧
    (getHistoryText (addToHistory 0 st q a) = getHistoryText st) := by
  have hchar : 0 < maxSize →
      histItems (addToHistory maxSize st q a)
        = (histItems st ++ [(q, a)]).rtake maxSize.toNat := by
    intro hpos
    have hneg : ¬maxSize ≤ 0 := not_le.mpr hpos
    cases st with
    | none =>
      simp [addToHistory, histItems, if_neg hneg, Int.toNat_of_nonneg (le_of_lt hpos)]
    | some r =>
      by_cases hm : (r.maxlen : ℤ) = maxSize
      · have hmn : r.maxlen = maxSize.toNat := by omega
        simp only [addToHistory, if_neg hneg, Option.getD_some, if_neg (not_not.mpr hm),
          histItems]
        rw [hmn]
      · simp only [addToHistory, if_neg hneg, Option.getD_some, if_pos hm, histItems]
        exact rtake_append_rtake maxSize.toNat r.items [(q, a)]
  refine ⟨?_, hchar, ?_, ?_, ?_⟩
  · intro h
    simp [addToHistory, if_pos h]
  · intro hpos
    rw [hchar hpos]
    exact length_rtake_le _ _
  · rfl
  · rfl

/-- Witness for C3 at concrete inputs: capacity 2 evicts the oldest of
three pairs, capacity -1 is a no-op. -/
theorem history_ring_amended_witness :
    ((2 : ℤ) ≤ 0 →
      addToHistory 2 (some ⟨2, [("q1", "a1"), ("q2", "a2")]⟩) "q3" "a3"
        = some ⟨2, [("q1", "a1"), ("q2", "a2")]⟩) ∧
    ((0 : ℤ) < 2 →
      histItems (addToHistory 2 (some ⟨2, [("q1", "a1"), ("q2", "a2")]⟩) "q3" "a3")
        = (histItems (some ⟨2, [("q1", "a1"), ("q2", "a2")]⟩) ++ [("q3", "a3")]).rtake
            (2 : ℤ).toNat) ∧
    ((0 : ℤ) < 2 →
      (histItems (addToHistory 2 (some ⟨2, [("q1", "a1"), ("q2", "a2")]⟩) "q3" "a3")).length
        ≤ (2 : ℤ).toNat) ∧
    (getHistoryText (some ⟨3, [("q1", "a1")]⟩) = getHistoryText (some ⟨7, [("q1", "a1")]⟩)) ∧
    (getHistoryText (addToHistory 0 (some ⟨2, [("q1", "a1"), ("q2", "a2")]⟩) "q3" "a3")
      = getHistoryText (some ⟨2, [("q1", "a1"), ("q2", "a2")]⟩)) :=
  history_ring_amended 2 (some ⟨2, [("q1", "a1"), ("q2", "a2")]⟩) "q3" "a3" 3 7 [("q1", "a1")]

/- ----------------------------------------------------------------------
   C4.  Knowledge-worker caller.
   ---------------------------------------------------------------------- -/

/-- C4 (confirmed): the worker caller raises its single typed error
(`RuntimeError`) for a timed-out child, for a non-zero exit (carrying the
stripped stderr text), for stripped-empty output, and for an `ok=false`
response (carrying the response error text); on success it returns
exactly the `result` field of the response decoded from the last output
line.  The hard timeout constant is 180 seconds. -/
theorem run_chroma_worker_spec {α : Type} (parse : String → Option (WorkerResp α))
    (rc : ℤ) (stdout stderr : String) (resp : WorkerResp α) :
    (runChromaWorker parse .timeout
      = .error (.runtimeError "Base de dados demorou muito para responder")) ∧
    (rc ≠ 0 → runChromaWorker parse (.completed rc stdout stderr)
      = .error (.runtimeError ("ChromaDB worker failed (exit " ++ toString rc ++ "): "
          ++ (if stderr == "" then "Processo encerrado inesperadamente" else pyStrip stderr)))) ∧
    (pyStrip stdout = "" → runChromaWorker parse (.completed 0 stdout stderr)
      = .error (.runtimeError "ChromaDB worker retornou sem dados")) ∧
    (pyStrip stdout ≠ "" →
      parse (String.mk ((splitChar '\n' (pyStrip stdout).toList).getLastD [])) = some resp →
      resp.ok = true →
      runChromaWorker parse (.completed 0 stdout stderr) = .ok resp.result) ∧
    (pyStrip stdout ≠ "" →
      parse (String.mk ((splitChar '\n' (pyStrip stdout).toList).getLastD [])) = some resp →
      resp.ok = false →
      runChromaWorker parse (.completed 0 stdout stderr)
        = .error (.runtimeError (resp.error.getD "Erro desconhecido"))) ∧
    chromaWorkerTimeoutSeconds = 180 := by
  refine ⟨rfl, ?_, ?_, ?_, ?_, rfl⟩
  · intro h
    simp [runChromaWorker, h]
  · intro h
    simp [runChromaWorker, h]
  · intro h hp hok
    simp only [List.getLastD_eq_getLast?] at hp
    have hp2 : parse (String.mk ((splitChar '\n' (pyStrip stdout).data).getLast?.getD []))
        = some resp := hp
    simp [runChromaWorker, h, hp2, hok]
  · intro h hp hok
    simp only [List.getLastD_eq_getLast?] at hp
    have hp2 : parse (String.mk ((splitChar '\n' (pyStrip stdout).data).getLast?.getD []))
        = some resp := hp
    simp [runChromaWorker, h, hp2, hok]

/-- Concrete parse function for the C4 witness: decodes the single line
`RESP` to a successful response carrying result `42`. -/
def parseRespW : String → Option (WorkerResp String) :=
  fun s => if s == "RESP" then some ⟨true, "42", none⟩ else none

/-- Witness for C4: a non-zero exit, an empty output, and a successful
run whose (stripped) stdout ends with the decodable line. -/
theorem run_chroma_worker_spec_witness :
    (runChromaWorker parseRespW (.completed 1 "junk" " boom ")
      = .error (.runtimeError ("ChromaDB worker failed (exit " ++ toString (1 : ℤ) ++ "): "
          ++ (if " boom " == "" then "Processo encerrado inesperadamente"
              else pyStrip " boom ")))) ∧
    (runChromaWorker parseRespW (.completed 0 "  " " boom ")
      = .error (.runtimeError "ChromaDB worker retornou sem dados")) ∧
    (runChromaWorker parseRespW (.completed 0 " log line\nRESP " " boom ")
      = .ok (⟨true, "42", none⟩ : WorkerResp String).result) :=
  ⟨(run_chroma_worker_spec parseRespW 1 "junk" " boom " ⟨true, "42", none⟩).2.1 (by decide),
   (run_chroma_worker_spec parseRespW 0 "  " " boom " ⟨true, "42", none⟩).2.2.1 (by decide),
   (run_chroma_worker_spec parseRespW 0 " log line\nRESP " " boom "
      ⟨true, "42", none⟩).2.2.2.1 (by decide) rfl rfl⟩

/- ----------------------------------------------------------------------
   C5.  Reminder lifecycle.
   ---------------------------------------------------------------------- -/

/-- C5 (confirmed): startup reconciliation keeps and registers exactly the
strictly-future reminders and discards every reminder at or before now;
firing a reminder attempts exactly one delivery per known user, removes
the fired reminder from the persisted list independently of which
deliveries failed, leaves every other reminder in place, and (when its id
is unique) shrinks the persisted list by exactly one. -/
theorem reminder_lifecycle_spec (now : ℚ) (rems : List Reminder) (rem : Reminder)
    (userIds : List ℤ) (sendOk sendOk2 : ℤ → Bool)
    (huniq : rems.countP (fun r => r.id == rem.id) = 1) :
    (∀ r ∈ rems, now < r.timestamp →
      r ∈ (setupReminderJobs now rems).1 ∧ r ∈ (setupReminderJobs now rems).2) ∧
    (∀ r ∈ rems, r.timestamp ≤ now → r ∉ (setupReminderJobs now rems).1) ∧
    ((executeReminder rems rem userIds sendOk).2.1.map (fun a => a.user) = userIds) ∧
    ((executeReminder rems rem userIds sendOk).2.1.length = userIds.length) ∧
    ((executeReminder rems rem userIds sendOk).1
      = (executeReminder rems rem userIds sendOk2).1) ∧
    (∀ r ∈ (executeReminder rems rem userIds sendOk).1, r.id ≠ rem.id) ∧
    (∀ r ∈ rems, r.id ≠ rem.id → r ∈ (executeReminder rems rem userIds sendOk).1) ∧
    ((executeReminder rems rem userIds sendOk).1.length + 1 = rems.length) := by
  refine ⟨?_, ?_, ?_, ?_, rfl, ?_, ?_, ?_⟩
  · intro r hr hfut
    constructor <;> simp [setupReminderJobs, List.mem_filter, hr, hfut]
  · intro r hr hpast
    simp only [setupReminderJobs, List.mem_filter]
    rintro ⟨-, habs⟩
    simp only [decide_eq_true_eq] at habs
    linarith
  · show (userIds.map (fun u => DeliveryAttempt.mk u (sendOk u))).map (fun a => a.user)
        = userIds
    induction userIds with
    | nil => rfl
    | cons u us ih => simpa using ih
  · simp [executeReminder]
  · intro r hr
    have := (List.mem_filter.mp hr).2
    simpa using this
  · intro r hr hne
    refine List.mem_filter.mpr ⟨hr, ?_⟩
    simpa using hne
  · have hflt : (executeReminder rems rem userIds sendOk).1
        = rems.filter (fun r => r.id != rem.id) := rfl
    rw [hflt, ← List.countP_eq_length_filter]
    have hsum : rems.countP (fun r => r.id != rem.id)
        + rems.countP (fun r => r.id == rem.id) = rems.length := by
      clear huniq hflt
      induction rems with
      | nil => rfl
      | cons r rs ih =>
        have hbne : (r.id != rem.id) = !(r.id == rem.id) := rfl
        rw [List.countP_cons, List.countP_cons, List.length_cons, hbne]
        cases hid : r.id == rem.id
        · rw [if_pos (show (!false) = true from rfl),
            if_neg (show ¬(false = true) from by simp)]
          omega
        · rw [if_neg (show ¬((!true) = true) from by simp), if_pos rfl]
          omega
    omega

/-- Witness for C5: a two-reminder list at time 10, one expired and one in
the future, with two users. -/
theorem reminder_lifecycle_spec_witness :
    (∀ r ∈ [Reminder.mk "rem_5" 5 "d5" "m5", Reminder.mk "rem_20" 20 "d20" "m20"],
      (10 : ℚ) < r.timestamp →
      r ∈ (setupReminderJobs 10 [Reminder.mk "rem_5" 5 "d5" "m5",
            Reminder.mk "rem_20" 20 "d20" "m20"]).1 ∧
      r ∈ (setupReminderJobs 10 [Reminder.mk "rem_5" 5 "d5" "m5",
            Reminder.mk "rem_20" 20 "d20" "m20"]).2) ∧
    (∀ r ∈ [Reminder.mk "rem_5" 5 "d5" "m5", Reminder.mk "rem_20" 20 "d20" "m20"],
      r.timestamp ≤ (10 : ℚ) →
      r ∉ (setupReminderJobs 10 [Reminder.mk "rem_5" 5 "d5" "m5",
            Reminder.mk "rem_20" 20 "d20" "m20"]).1) ∧
    ((executeReminder [Reminder.mk "rem_5" 5 "d5" "m5", Reminder.mk "rem_20" 20 "d20" "m20"]
        (Reminder.mk "rem_20" 20 "d20" "m20") [7, 9] (fun u => u == 7)).2.1.map
        (fun a => a.user) = [7, 9]) ∧
    ((executeReminder [Reminder.mk "rem_5" 5 "d5" "m5", Reminder.mk "rem_20" 20 "d20" "m20"]
        (Reminder.mk "rem_20" 20 "d20" "m20") [7, 9] (fun u => u == 7)).2.1.length
      = ([7, 9] : List ℤ).length) ∧
    ((executeReminder [Reminder.mk "rem_5" 5 "d5" "m5", Reminder.mk "rem_20" 20 "d20" "m20"]
        (Reminder.mk "rem_20" 20 "d20" "m20") [7, 9] (fun u => u == 7)).1
      = (executeReminder [Reminder.mk "rem_5" 5 "d5" "m5", Reminder.mk "rem_20" 20 "d20" "m20"]
          (Reminder.mk "rem_20" 20 "d20" "m20") [7, 9] (fun _ => false)).1) ∧
    (∀ r ∈ (executeReminder [Reminder.mk "rem_5" 5 "d5" "m5",
          Reminder.mk "rem_20" 20 "d20" "m20"]
        (Reminder.mk "rem_20" 20 "d20" "m20") [7, 9] (fun u => u == 7)).1,
      r.id ≠ (Reminder.mk "rem_20" 20 "d20" "m20").id) ∧
    (∀ r ∈ [Reminder.mk "rem_5" 5 "d5" "m5", Reminder.mk "rem_20" 20 "d20" "m20"],
      r.id ≠ (Reminder.mk "rem_20" 20 "d20" "m20").id →
      r ∈ (executeReminder [Reminder.mk "rem_5" 5 "d5" "m5",
            Reminder.mk "rem_20" 20 "d20" "m20"]
          (Reminder.mk "rem_20" 20 "d20" "m20") [7, 9] (fun u => u == 7)).1) ∧
    ((executeReminder [Reminder.mk "rem_5" 5 "d5" "m5", Reminder.mk "rem_20" 20 "d20" "m20"]
        (Reminder.mk "rem_20" 20 "d20" "m20") [7, 9] (fun u => u == 7)).1.length + 1
      = ([Reminder.mk "rem_5" 5 "d5" "m5", Reminder.mk "rem_20" 20 "d20" "m20"]).length) :=
  reminder_lifecycle_spec 10 [Reminder.mk "rem_5" 5 "d5" "m5",
    Reminder.mk "rem_20" 20 "d20" "m20"] (Reminder.mk "rem_20" 20 "d20" "m20")
    [7, 9] (fun u => u == 7) (fun _ => false) (by decide)

/- ----------------------------------------------------------------------
   C6.  Delete of an absent file.
   ---------------------------------------------------------------------- -/

/-- C6 (confirmed): deleting a filename matched by no stored chunk leaves
the store untouched and returns the explicit not-found failure (the wire
response is `ok=false` with that error text), the store statistics are
unchanged, and repeating the delete yields the same outcome. -/
theorem delete_absent_spec (store : List Chunk) (filename : String)
    (h : ∀ c ∈ store, matchesFile c filename = false) :
    deleteDocument store filename
      = (store, .notFound ("Arquivo \x27" ++ filename ++ "\x27 não encontrado na base.")) ∧
    getStats (deleteDocument store filename).1 = getStats store ∧
    deleteDocument (deleteDocument store filename).1 filename
      = deleteDocument store filename ∧
    (workerDelete store filename).1 = store ∧
    (workerDelete store filename).2
      = .errResp ("Arquivo \x27" ++ filename ++ "\x27 não encontrado na base.") := by
  have hnil : store.filter (fun c => matchesFile c filename) = [] := by
    rw [List.filter_eq_nil_iff]
    intro c hc
    simp [h c hc]
  have hdel : deleteDocument store filename
      = (store, .notFound ("Arquivo \x27" ++ filename ++ "\x27 não encontrado na base.")) := by
    simp [deleteDocument, hnil]
  refine ⟨hdel, ?_, ?_, ?_, ?_⟩
  · rw [hdel]
  · rw [hdel]
    exact hdel
  · simp [workerDelete, hdel]
  · simp [workerDelete, hdel]

/-- Witness for C6: a one-chunk store holding `a.pdf`, deleting `b.pdf`. -/
theorem delete_absent_spec_witness :
    deleteDocument [Chunk.mk "id1" (some ⟨some "a.pdf", none⟩)] "b.pdf"
      = ([Chunk.mk "id1" (some ⟨some "a.pdf", none⟩)],
         .notFound ("Arquivo \x27" ++ "b.pdf" ++ "\x27 não encontrado na base.")) ∧
    getStats (deleteDocument [Chunk.mk "id1" (some ⟨some "a.pdf", none⟩)] "b.pdf").1
      = getStats [Chunk.mk "id1" (some ⟨some "a.pdf", none⟩)] ∧
    deleteDocument (deleteDocument [Chunk.mk "id1" (some ⟨some "a.pdf", none⟩)] "b.pdf").1
        "b.pdf"
      = deleteDocument [Chunk.mk "id1" (some ⟨some "a.pdf", none⟩)] "b.pdf" ∧
    (workerDelete [Chunk.mk "id1" (some ⟨some "a.pdf", none⟩)] "b.pdf").1
      = [Chunk.mk "id1" (some ⟨some "a.pdf", none⟩)] ∧
    (workerDelete [Chunk.mk "id1" (some ⟨some "a.pdf", none⟩)] "b.pdf").2
      = .errResp ("Arquivo \x27" ++ "b.pdf" ++ "\x27 não encontrado na base.") :=
  delete_absent_spec [Chunk.mk "id1" (some ⟨some "a.pdf", none⟩)] "b.pdf" (by decide)

/- ----------------------------------------------------------------------
   C7.  Bridge submission.
   ---------------------------------------------------------------------- -/

/-- C7 (confirmed): `submit` fails with the startup error whenever the
2-second wait for the ready signal elapses without it; with the signal
set but the scheduler stopped (loop absent or no longer running) it
raises an error instead of silently doing nothing; with a live scheduler
it returns a future handle; and every call either returns a handle or
raises. -/
theorem submit_spec (loop : Option EventLoop) (l : EventLoop)
    (hstop : l.isRunning = false) :
    (submit false loop
      = .raisesRuntimeError "Async event loop did not start in time.") ∧
    (submit true (some l) = .raisesRuntimeError "Async event loop is not running.") ∧
    (submit true (some l) ≠ .futureHandle) ∧
    (submit true none = .raisesRuntimeError "Async event loop is not running.") ∧
    (submit true (some ⟨true⟩) = .futureHandle) ∧
    (∀ ready loop2, submit ready loop2 = .futureHandle ∨
      ∃ msg, submit ready loop2 = .raisesRuntimeError msg) ∧
    submitTimeoutSeconds = 2 := by
  refine ⟨rfl, ?_, ?_, rfl, rfl, ?_, rfl⟩
  · simp [submit, hstop]
  · simp [submit, hstop]
  · intro ready loop2
    rcases ready with _ | _
    · exact Or.inr ⟨_, rfl⟩
    · rcases loop2 with _ | ⟨_ | _⟩
      · exact Or.inr ⟨_, rfl⟩
      · exact Or.inr ⟨_, rfl⟩
      · exact Or.inl rfl

/-- Witness for C7 with a stopped loop. -/
theorem submit_spec_witness :
    (submit false (some ⟨false⟩)
      = .raisesRuntimeError "Async event loop did not start in time.") ∧
    (submit true (some ⟨false⟩) = .raisesRuntimeError "Async event loop is not running.") ∧
    (submit true (some ⟨false⟩) ≠ .futureHandle) ∧
    (submit true none = .raisesRuntimeError "Async event loop is not running.") ∧
    (submit true (some ⟨true⟩) = .futureHandle) ∧
    (∀ ready loop2, submit ready loop2 = .futureHandle ∨
      ∃ msg, submit ready loop2 = .raisesRuntimeError msg) ∧
    submitTimeoutSeconds = 2 :=
  submit_spec (some ⟨false⟩) ⟨false⟩ rfl

/- ----------------------------------------------------------------------
   C8.  Configuration migration idempotence.
   ---------------------------------------------------------------------- -/

/-- Migration only appends: the migrated document extends the loaded one. -/
theorem migrateConfig_extends (defaults : List (String × JVal)) :
    ∀ doc : ConfigDoc, ∃ extra, (migrateConfig doc defaults).1 = doc ++ extra := by
  induction defaults with
  | nil => intro doc; exact ⟨[], (List.append_nil doc).symm⟩
  | cons kv rest ih =>
    intro doc
    by_cases hm : kv.1 ∈ configKeys doc
    · rcases ih doc with ⟨extra, hex⟩
      refine ⟨extra, ?_⟩
      simpa [migrateConfig, hm] using hex
    · rcases ih (doc ++ [kv]) with ⟨extra, hex⟩
      refine ⟨[kv] ++ extra, ?_⟩
      simp only [migrateConfig, hm]
      rw [hex, List.append_assoc, if_neg (by simpa using hm)]

/-- Migration never deletes a key of the loaded document. -/
theorem migrateConfig_keeps_keys (defaults : List (String × JVal)) (doc : ConfigDoc)
    (k : String) (hk : k ∈ configKeys doc) :
    k ∈ configKeys (migrateConfig doc defaults).1 := by
  rcases migrateConfig_extends defaults doc with ⟨extra, hex⟩
  rw [hex]
  simp only [configKeys, List.map_append, List.mem_append]
  exact Or.inl hk

/-- After migration every default key is present. -/
theorem migrateConfig_defaults_present (defaults : List (String × JVal)) :
    ∀ doc : ConfigDoc, ∀ kv ∈ defaults, kv.1 ∈ configKeys (migrateConfig doc defaults).1 := by
  induction defaults with
  | nil => intro doc kv h; exact absurd h (List.not_mem_nil kv)
  | cons kv0 rest ih =>
    intro doc kv hmem
    rcases List.mem_cons.mp hmem with h | h
    · subst h
      by_cases hm : kv.1 ∈ configKeys doc
      · simpa [migrateConfig, hm] using
          migrateConfig_keeps_keys rest doc kv.1 hm
      · have hk : kv.1 ∈ configKeys (doc ++ [kv]) := by
          simp [configKeys]
        simpa [migrateConfig, hm] using
          migrateConfig_keeps_keys rest (doc ++ [kv]) kv.1 hk
    · by_cases hm : kv0.1 ∈ configKeys doc
      · simpa [migrateConfig, hm] using ih doc kv h
      · simpa [migrateConfig, hm] using ih (doc ++ [kv0]) kv h

/-- Migration of a document already containing every default key does
nothing and reports no update. -/
theorem migrateConfig_complete (defaults : List (String × JVal)) :
    ∀ doc : ConfigDoc, (∀ kv ∈ defaults, kv.1 ∈ configKeys doc) →
      migrateConfig doc defaults = (doc, false) := by
  induction defaults with
  | nil => intro doc _; rfl
  | cons kv rest ih =>
    intro doc hall
    have hm : kv.1 ∈ configKeys doc := hall kv (List.mem_cons_self kv rest)
    have hrest := ih doc (fun kv2 h2 => hall kv2 (List.mem_cons_of_mem kv h2))
    simpa [migrateConfig, hm] using hrest

/-- A migration that reported no update returned the document unchanged. -/
theorem migrateConfig_not_updated (defaults : List (String × JVal)) :
    ∀ doc : ConfigDoc, (migrateConfig doc defaults).2 = false →
      (migrateConfig doc defaults).1 = doc := by
  induction defaults with
  | nil => intro doc _; rfl
  | cons kv rest ih =>
    intro doc h
    by_cases hm : kv.1 ∈ configKeys doc
    · have h2 : (migrateConfig doc rest).2 = false := by
        simpa [migrateConfig, hm] using h
      simpa [migrateConfig, hm] using ih doc h2
    · exact absurd h (by simp [migrateConfig, hm])

/-- C8 (confirmed): re-initializing the configuration store immediately
after an initialization leaves the persisted document byte-identical and
performs no write: the migration backfills missing default keys (and
rewrites the file) at most once, never deletes keys unknown to the
loader, and is a pure no-op on a document that already contains every
default key. -/
theorem config_init_idempotent (f : FileState) (doc : ConfigDoc) (k : String) :
    ((initConfig (initConfig f).file).file = (initConfig f).file) ∧
    ((initConfig (initConfig f).file).wrote = false) ∧
    (k ∈ configKeys doc → k ∈ configKeys (migrateConfig doc getDefaults).1) ∧
    ((∀ kv ∈ getDefaults, kv.1 ∈ configKeys doc) →
      migrateConfig doc getDefaults = (doc, false)) := by
  have hstored : ∀ d : ConfigDoc, (∀ kv ∈ getDefaults, kv.1 ∈ configKeys d) →
      initConfig (.stored d) = ⟨.stored d, d, false⟩ := by
    intro d hd
    simp [initConfig, migrateConfig_complete getDefaults d hd]
  have hfull : ∀ kv ∈ getDefaults, kv.1 ∈ configKeys (initConfig f).memory := by
    cases f with
    | missing => intro kv h; exact List.mem_map_of_mem Prod.fst h
    | corrupt => intro kv h; exact List.mem_map_of_mem Prod.fst h
    | stored doc0 =>
      intro kv h
      by_cases hu : (migrateConfig doc0 getDefaults).2
      · simpa [initConfig, hu] using migrateConfig_defaults_present getDefaults doc0 kv h
      · have hb : (migrateConfig doc0 getDefaults).2 = false := by
          cases hx : (migrateConfig doc0 getDefaults).2
          · rfl
          · exact absurd hx hu
        simpa [initConfig, hb] using migrateConfig_defaults_present getDefaults doc0 kv h
  have hfile : (initConfig f).file = .stored (initConfig f).memory := by
    cases f with
    | missing => rfl
    | corrupt => rfl
    | stored doc0 =>
      by_cases hu : (migrateConfig doc0 getDefaults).2
      · simp [initConfig, hu]
      · have hb : (migrateConfig doc0 getDefaults).2 = false := by
          cases hx : (migrateConfig doc0 getDefaults).2
          · rfl
          · exact absurd hx hu
        have hnoop := migrateConfig_not_updated getDefaults doc0 hb
        simp [initConfig, hb, hnoop]
  refine ⟨?_, ?_, migrateConfig_keeps_keys getDefaults doc k,
    migrateConfig_complete getDefaults doc⟩
  · rw [hfile, hstored (initConfig f).memory hfull]
  · rw [hfile, hstored (initConfig f).memory hfull]

/-- Witness for C8: a one-key document with a key unknown to the loader;
the first initialization backfills the defaults, the second is a pure
no-op. -/
theorem config_init_idempotent_witness :
    ((initConfig (initConfig (.stored [("extra", .s "v")])).file).file
      = (initConfig (.stored [("extra", .s "v")])).file) ∧
    ((initConfig (initConfig (.stored [("extra", .s "v")])).file).wrote = false) ∧
    ("extra" ∈ configKeys [("extra", .s "v")] →
      "extra" ∈ configKeys (migrateConfig [("extra", .s "v")] getDefaults).1) ∧
    ((∀ kv ∈ getDefaults, kv.1 ∈ configKeys [("extra", .s "v")]) →
      migrateConfig [("extra", .s "v")] getDefaults = ([("extra", .s "v")], false)) :=
  config_init_idempotent (.stored [("extra", .s "v")]) [("extra", .s "v")] "extra"

/- ----------------------------------------------------------------------
   C9.  Streamed reply cleaning.
   ---------------------------------------------------------------------- -/

/-- Skipping empty chunks does not change the accumulated response text. -/
theorem responseTextOf_filter_ne (l : List String) :
    responseTextOf (l.filter (fun c => c != "")) = responseTextOf l := by
  have haux : ∀ acc : String,
      (l.filter (fun c => c != "")).foldl (fun a c => a ++ c) acc
        = l.foldl (fun a c => a ++ c) acc := by
    induction l with
    | nil => intro acc; rfl
    | cons c cs ih =>
      intro acc
      by_cases hc : c = ""
      · subst hc
        simp only [List.filter_cons, show (("" : String) != "") = false from rfl,
          List.foldl_cons, String.append_empty]
        exact ih acc
      · have hb : (c != "") = true := by simpa [bne] using hc
        simp only [List.filter_cons, hb, List.foldl_cons]
        exact ih (acc ++ c)
  exact haux ""

/-- The accumulated response is the concatenation of the per-fragment
think-stripped chunks. -/
theorem responseTextOf_emitted (raw : List String) :
    responseTextOf (ollamaEmittedChunks raw) = responseTextOf (raw.map stripThink) := by
  exact responseTextOf_filter_ne (raw.map stripThink)

/-- C9 counterexample: a thinking block split across two streamed
fragments survives the per-fragment stripping, so the displayed reply is
not the concatenation of the fragments with artifacts stripped, and two
splits of the same generated text display differently. -/
theorem clean_reply_counterexample :
    handleReply ["<think>x", "</think>ok"]
      ≠ specDisplayedReply ["<think>x", "</think>ok"] ∧
    handleReply ["<think>x", "</think>ok"] = "<think>x</think>ok" ∧
    handleReply ["<think>x</think>ok"] = "ok" ∧
    specDisplayedReply ["<think>x", "</think>ok"] = "ok" := by decide

/-- C9 (corrected): the displayed reply is `_clean_markdown` applied to
the concatenation of the per-fragment think-stripped chunks; whenever the
split does not cut a thinking block across fragment boundaries (so that
stripping the concatenation equals concatenating the stripped fragments)
and the accumulated text is non-empty, this coincides with the claimed
concatenate-then-strip behaviour. -/
theorem clean_reply_amended (raw : List String)
    (hne : responseTextOf (raw.map stripThink) ≠ "")
    (hsplit : stripThink (responseTextOf raw) = responseTextOf (raw.map stripThink)) :
    handleReply raw = cleanMarkdown (responseTextOf (raw.map stripThink)) ∧
    handleReply raw = specDisplayedReply raw := by
  have h1 : handleReply raw = cleanMarkdown (responseTextOf (raw.map stripThink)) := by
    unfold handleReply
    rw [responseTextOf_emitted raw]
    rw [if_neg (by simpa using hne)]
  refine ⟨h1, ?_⟩
  rw [h1]
  unfold specDisplayedReply
  rw [hsplit]

/-- Witness for C9 at the streamed fragments of the end-to-end example:
`"Hi"`, `" there"`. -/
theorem clean_reply_amended_witness :
    (handleReply ["Hi", " there"]
      = cleanMarkdown (responseTextOf (["Hi", " there"].map stripThink))) ∧
    (handleReply ["Hi", " there"] = specDisplayedReply ["Hi", " there"]) :=
  clean_reply_amended ["Hi", " there"] (by decide) (by decide)

/- ----------------------------------------------------------------------
   C10.  Empty or missing admin id.
   ---------------------------------------------------------------------- -/

/-- C10 (confirmed): with `admin_id` missing or stored as the empty
string, the admin check returns false for every user, so every handler
that performs the allow-list check denies its action to all users (the
explicit-reply gates deny with a reply, the silent gates return without
acting); no user is an implicit default administrator. -/
theorem admin_empty_denies_all (stored : Option String) (uid : String)
    (h : stored = none ∨ stored = some "") :
    isAdmin (adminIdOf stored) uid = false ∧
    cmdListModels true (isAdmin (adminIdOf stored) uid) = .accessDeniedReply ∧
    cmdEmbedding true (isAdmin (adminIdOf stored) uid) = .accessDeniedReply ∧
    cmdClearDatabase true (isAdmin (adminIdOf stored) uid) = .accessDeniedReply ∧
    cmdAddKnowledgeText true (isAdmin (adminIdOf stored) uid) = .accessDeniedReply ∧
    cmdAviso true (isAdmin (adminIdOf stored) uid) = .accessDeniedReply ∧
    cmdVerbosity true (isAdmin (adminIdOf stored) uid) = .silentReturn ∧
    cmdAddReminder true (isAdmin (adminIdOf stored) uid) = .silentReturn ∧
    cmdSaude true (isAdmin (adminIdOf stored) uid) = .silentReturn ∧
    cmdPingIa true (isAdmin (adminIdOf stored) uid) = .silentReturn ∧
    cmdListModels true (isAdmin (adminIdOf stored) uid) ≠ .executed ∧
    cmdEmbedding true (isAdmin (adminIdOf stored) uid) ≠ .executed ∧
    cmdClearDatabase true (isAdmin (adminIdOf stored) uid) ≠ .executed ∧
    cmdAddKnowledgeText true (isAdmin (adminIdOf stored) uid) ≠ .executed ∧
    cmdAviso true (isAdmin (adminIdOf stored) uid) ≠ .executed ∧
    cmdVerbosity true (isAdmin (adminIdOf stored) uid) ≠ .executed ∧
    cmdAddReminder true (isAdmin (adminIdOf stored) uid) ≠ .executed ∧
    cmdSaude true (isAdmin (adminIdOf stored) uid) ≠ .executed ∧
    cmdPingIa true (isAdmin (adminIdOf stored) uid) ≠ .executed := by
  have hA : isAdmin (adminIdOf stored) uid = false := by
    rcases h with h | h <;> subst h <;> rfl
  rw [hA]
  refine ⟨rfl, ?_⟩
  decide

/-- Witness for C10 with stored admin id the empty string and a concrete
user id. -/
theorem admin_empty_denies_all_witness :
    isAdmin (adminIdOf (some "")) "12345" = false ∧
    cmdListModels true (isAdmin (adminIdOf (some "")) "12345") = .accessDeniedReply ∧
    cmdEmbedding true (isAdmin (adminIdOf (some "")) "12345") = .accessDeniedReply ∧
    cmdClearDatabase true (isAdmin (adminIdOf (some "")) "12345") = .accessDeniedReply ∧
    cmdAddKnowledgeText true (isAdmin (adminIdOf (some "")) "12345") = .accessDeniedReply ∧
    cmdAviso true (isAdmin (adminIdOf (some "")) "12345") = .accessDeniedReply ∧
    cmdVerbosity true (isAdmin (adminIdOf (some "")) "12345") = .silentReturn ∧
    cmdAddReminder true (isAdmin (adminIdOf (some "")) "12345") = .silentReturn ∧
    cmdSaude true (isAdmin (adminIdOf (some "")) "12345") = .silentReturn ∧
    cmdPingIa true (isAdmin (adminIdOf (some "")) "12345") = .silentReturn ∧
    cmdListModels true (isAdmin (adminIdOf (some "")) "12345") ≠ .executed ∧
    cmdEmbedding true (isAdmin (adminIdOf (some "")) "12345") ≠ .executed ∧
    cmdClearDatabase true (isAdmin (adminIdOf (some "")) "12345") ≠ .executed ∧
    cmdAddKnowledgeText true (isAdmin (adminIdOf (some "")) "12345") ≠ .executed ∧
    cmdAviso true (isAdmin (adminIdOf (some "")) "12345") ≠ .executed ∧
    cmdVerbosity true (isAdmin (adminIdOf (some "")) "12345") ≠ .executed ∧
    cmdAddReminder true (isAdmin (adminIdOf (some "")) "12345") ≠ .executed ∧
    cmdSaude true (isAdmin (adminIdOf (some "")) "12345") ≠ .executed ∧
    cmdPingIa true (isAdmin (adminIdOf (some "")) "12345") ≠ .executed :=
  admin_empty_denies_all (some "") "12345" (Or.inr rfl)
